import Mathlib

/-
Verification of the oxidizr experiment lifecycle engine and its
file substitution / backup / restore protocol.

The development shallowly embeds the relevant Rust source:
  * `src/utils/worker.rs` — the `Worker` trait and the `System`
    implementation of the file-substitution primitives
    (`replace_file_with_symlink`, `backup_file`, `restore_file`,
    `create_symlink`, `backup_filename`) and of the package-manager
    operations (`install_package`, `remove_package`, `check_installed`,
    `list_files`).
  * `src/utils/files.rs` — the earlier, free-function variants of the
    same primitives (`files_backup_file`, `files_restore_file`); this
    module is not declared in `src/utils/mod.rs` and is dead code, but
    it is part of the repository and is modelled as written.
  * `src/experiments/uutils.rs`, `src/experiments/sudors.rs`,
    `src/experiments/mod.rs` — the experiment lifecycle
    (`check_compatible`, `check_installed`, `enable`, `disable`).

The filesystem is modelled as an association list from paths to entries
(regular file with content and permission bits, or symlink).  A path is
a parent directory plus a file name, mirroring the only two components
the source ever consults (Rust `Path::parent` and `Path::file_name`).
Permission bits are a natural number; the low nine bits (`m % 512`) are
the `rwx` bits, which `fs::copy` preserves, while the setuid/setgid/
sticky bits above them are cleared by `fs::copy` and must be re-applied
by `fs::set_permissions` as `System::backup_file` does.

All observable actions (package-manager commands, directory listings,
and invocations of the substitution primitives) are recorded in a
chronological event log inside the `World` state, mirroring how the
repository's `MockSystem` test double records `commands`,
`backed_up_files`, `restored_files` and `created_symlinks`.
-/

/-- A filesystem path, decomposed as the parent directory (the string
Rust `Path::parent` renders to) and the file name (`Path::file_name`). -/
structure FsPath where
  dir : String
  base : String
deriving DecidableEq, Repr

/-- A filesystem entry: a regular file with content and permission bits,
or a symbolic link to a source path. -/
inductive FsEntry where
  | file (content : String) (perm : Nat)
  | symlink (source : FsPath)
deriving DecidableEq, Repr

/-- Linux distribution information, from `src/utils/mod.rs`. -/
structure Distribution where
  id : String
  release : String
deriving DecidableEq, Repr

/-- Observable actions performed through the `Worker` interface, in the
style of the recording `MockSystem` test double. -/
inductive Event where
  | cmd (c : String)
  | listDir (d : String)
  | replaceCall (source target : FsPath)
  | backupCall (file : FsPath)
  | restoreCall (file : FsPath)
  | symlinkCall (source target : FsPath)
deriving DecidableEq, Repr

/-- The filesystem: a finite map from paths to entries, as an
association list. -/
def FS := List (FsPath × FsEntry)

instance : DecidableEq FS := inferInstanceAs (DecidableEq (List (FsPath × FsEntry)))

/-- Look up the entry at a path. -/
def fsGet : FS → FsPath → Option FsEntry
  | [], _ => none
  | (q, e) :: rest, p => if p = q then some e else fsGet rest p

/-- Remove a path from the filesystem. -/
def fsErase : FS → FsPath → FS
  | [], _ => []
  | (q, e) :: rest, p => if q = p then fsErase rest p else (q, e) :: fsErase rest p

/-- Write an entry at a path, replacing any previous entry. -/
def fsInsert (fs : FS) (p : FsPath) (e : FsEntry) : FS :=
  (p, e) :: fsErase fs p

/-- Whether a path exists on disk (`fs::exists`). -/
def fsExists (fs : FS) (p : FsPath) : Bool :=
  (fsGet fs p).isSome

/-- Whether the entry at a path is a symlink (Rust `Path::is_symlink`). -/
def isSymlinkAt (fs : FS) (p : FsPath) : Bool :=
  match fsGet fs p with
  | some (FsEntry.symlink _) => true
  | _ => false

/-- Atomically move the entry at `src` over `dst` (`fs::rename`). -/
def fsRename (fs : FS) (src dst : FsPath) : FS :=
  match fsGet fs src with
  | some e => fsInsert (fsErase fs src) dst e
  | none => fs

/-- The world state threaded through the engine: the filesystem, the set
of existing directories, the installed packages, the binary-name
resolution table consulted by `which`, the host distribution, and the
chronological log of observable actions. -/
structure World where
  fs : FS
  dirs : List String
  installed : List String
  whichMap : List (String × FsPath)
  distribution : Distribution
  log : List Event
deriving DecidableEq

/-- Resolve a binary name on the search path (the `which` crate). -/
def whichLookup (w : World) (name : String) : Option FsPath :=
  match w.whichMap.find? (fun np => np.1 = name) with
  | some np => some np.2
  | none => none

/-- Generate a backup filename, from `backup_filename` in
`src/utils/worker.rs` lines 193-200: for `/path/to/file` the backup is
`/path/to/.file.oxidizr.bak` (same parent directory, file name prefixed
with a dot and suffixed with `.oxidizr.bak`). -/
def backup_filename (file : FsPath) : FsPath :=
  { dir := file.dir, base := "." ++ file.base ++ ".oxidizr.bak" }

/-- Run a package-manager command: the command line is recorded in the
log (`System::run` executes it via `std::process::Command`). -/
def runCmd (w : World) (c : String) : World :=
  { w with log := w.log ++ [Event.cmd c] }

/-- Install a package, from the `Worker` default method `install_package`
(`apt-get install -y <package>`).  The effect of apt on the package
database is modelled by adding the package to the installed set. -/
def install_package (w : World) (pkg : String) : World :=
  let w := runCmd w ("apt-get install -y " ++ pkg)
  { w with installed := pkg :: w.installed }

/-- Remove a package, from the `Worker` default method `remove_package`
(`apt-get remove -y <package>`). -/
def remove_package (w : World) (pkg : String) : World :=
  let w := runCmd w ("apt-get remove -y " ++ pkg)
  { w with installed := w.installed.filter (fun q => q ≠ pkg) }

/-- Check whether a package is installed, from the `Worker` default
method `check_installed`: runs `dpkg-query -s <package>` and maps
success to `true`, failure to `false` (never an error). -/
def check_installed (w : World) (pkg : String) : Bool × World :=
  (w.installed.contains pkg, runCmd w ("dpkg-query -s " ++ pkg))

/-- The paths contained in a directory. -/
def dirFiles (fs : FS) (dir : String) : List FsPath :=
  (fs.filter (fun pe => pe.1.dir = dir)).map (fun pe => pe.1)

/-- List files in a directory, from `System::list_files`: errors if the
directory does not exist, otherwise returns the entries. -/
def list_files (w : World) (dir : String) : Option (List FsPath × World) :=
  if w.dirs.contains dir then
    some (dirFiles w.fs dir, { w with log := w.log ++ [Event.listDir dir] })
  else none

/-- Create a symlink, from `System::create_symlink`: any existing target
is removed (`remove_file_if_exists`) and the symlink is created in its
place. -/
def create_symlink (w : World) (source target : FsPath) : World :=
  { w with
    fs := fsInsert w.fs target (FsEntry.symlink source),
    log := w.log ++ [Event.symlinkCall source target] }

/-- Backup a file, from `System::backup_file` in `src/utils/worker.rs`
lines 153-164: `fs::copy` the file to its backup path — which preserves
only the low nine permission bits, clearing setuid/setgid/sticky — then
`fs::metadata` + `fs::set_permissions` to re-apply the original
permission bits to the backup.  `fs::copy` follows symlinks, reading
the referent; it fails if the file does not exist. -/
def backup_file (w : World) (file : FsPath) : Option World :=
  let copied : Option (String × Nat) :=
    match fsGet w.fs file with
    | some (FsEntry.file c m) => some (c, m)
    | some (FsEntry.symlink s) =>
      match fsGet w.fs s with
      | some (FsEntry.file c m) => some (c, m)
      | _ => none
    | none => none
  match copied with
  | some (c, m) =>
    let b := backup_filename file
    let fs1 := fsInsert w.fs b (FsEntry.file c (m % 512))
    let fs2 := fsInsert fs1 b (FsEntry.file c m)
    some { w with fs := fs2, log := w.log ++ [Event.backupCall file] }
  | none => none

/-- Remove a file (`fs::remove_file`): errors if the path is missing. -/
def removeFile (w : World) (p : FsPath) : Option World :=
  if fsExists w.fs p then some { w with fs := fsErase w.fs p } else none

/-- Replace a file with a symlink, from
`System::replace_file_with_symlink` in `src/utils/worker.rs` lines
137-149: if the target exists and is already a symlink, skip; if it
exists as a regular file, back it up, delete it and symlink; if it does
not exist, just symlink.  The invocation itself is recorded as a
`replaceCall` event (as the `MockSystem` double records it). -/
def replace_file_with_symlink (w : World) (source target : FsPath) : Option World :=
  let w := { w with log := w.log ++ [Event.replaceCall source target] }
  if fsExists w.fs target then
    if isSymlinkAt w.fs target then
      some w
    else
      match backup_file w target with
      | some w1 =>
        match removeFile w1 target with
        | some w2 => some (create_symlink w2 source target)
        | none => none
      | none => none
  else
    some (create_symlink w source target)

/-- Restore a file from its backup, from `System::restore_file` in
`src/utils/worker.rs` lines 168-179: if the backup exists, `fs::rename`
it over the file; otherwise warn and leave the file untouched.  The
invocation is recorded as a `restoreCall` event. -/
def restore_file (w : World) (file : FsPath) : World :=
  let w := { w with log := w.log ++ [Event.restoreCall file] }
  let b := backup_filename file
  if fsExists w.fs b then
    { w with fs := fsRename w.fs b file }
  else
    w

/-- Backup a file, from the legacy free function `backup_file` in
`src/utils/files.rs` lines 33-43 (dead code: `files.rs` is not declared
in `src/utils/mod.rs`): `fs::copy` only, with no `set_permissions`
fix-up, so the setuid/setgid/sticky bits are not preserved on the
backup copy. -/
def files_backup_file (fs : FS) (file : FsPath) : Option FS :=
  let copied : Option (String × Nat) :=
    match fsGet fs file with
    | some (FsEntry.file c m) => some (c, m)
    | some (FsEntry.symlink s) =>
      match fsGet fs s with
      | some (FsEntry.file c m) => some (c, m)
      | _ => none
    | none => none
  match copied with
  | some (c, m) => some (fsInsert fs (backup_filename file) (FsEntry.file c (m % 512)))
  | none => none

/-- Restore a file, from the legacy free function `restore_file` in
`src/utils/files.rs` lines 45-62 (dead code): it first deletes the
target if it exists, and only then checks whether a backup exists and
renames it into place. -/
def files_restore_file (fs : FS) (file : FsPath) : FS :=
  let b := backup_filename file
  let fs1 := if fsExists fs file then fsErase fs file else fs
  if fsExists fs1 b then fsRename fs1 b file else fs1

/-- Lexicographic order on character lists, mirroring the `Ord`
instance Rust uses to compare `String`s byte-lexicographically (the two
agree on the ASCII release strings in use). -/
def charListLt : List Char → List Char → Bool
  | [], [] => false
  | [], _ :: _ => true
  | _ :: _, [] => false
  | a :: as, b :: bs => if a < b then true else if b < a then false else charListLt as bs

/-- Rust `a >= b` on `String`: the negation of the strict lexicographic
order. -/
def strGe (a b : String) : Bool :=
  !(charListLt a.data b.data)

/-- One substitutable utility set, from the `UutilsExperiment` struct in
`src/experiments/uutils.rs` (the `system` reference is implicit: the
operations below thread a `World` instead). -/
structure UutilsExperiment where
  name : String
  package : String
  first_supported_release : String
  unified_binary : Option FsPath
  bin_directory : String
deriving DecidableEq, Repr

/-- Compatibility gate of the uutils experiments, from
`UutilsExperiment::check_compatible` in `src/experiments/uutils.rs`
lines 37-39: `distribution().release >= first_supported_release`. -/
def UutilsExperiment.check_compatible (e : UutilsExperiment) (w : World) : Bool :=
  strGe w.distribution.release e.first_supported_release

/-- The symlink source used for a discovered file `f`, from the
`if let Some(unified_binary)` in `UutilsExperiment::enable`: the unified
binary when one is configured, `f` itself otherwise. -/
def uutilsSource (ub : Option FsPath) (f : FsPath) : FsPath :=
  match ub with
  | some u => u
  | none => f

/-- The enable loop body of `UutilsExperiment::enable`
(`src/experiments/uutils.rs` lines 69-79): for each discovered file,
the target is `/usr/bin/<file_name>`, and the symlink source is the
unified binary when one is configured, the discovered file otherwise. -/
def uutilsReplaceLoop (ub : Option FsPath) : List FsPath → World → Option World
  | [], w => some w
  | f :: rest, w =>
    let existing : FsPath := { dir := "/usr/bin", base := f.base }
    match replace_file_with_symlink w (uutilsSource ub f) existing with
    | some w1 => uutilsReplaceLoop ub rest w1
    | none => none

/-- Enable a uutils experiment, from `UutilsExperiment::enable` in
`src/experiments/uutils.rs` lines 54-82: skip (with success) when the
host release is incompatible; otherwise install the package, list the
package's bin directory and replace each file. -/
def UutilsExperiment.enable (e : UutilsExperiment) (w : World) : Option World :=
  if !(e.check_compatible w) then
    some w
  else
    let w := install_package w e.package
    match list_files w e.bin_directory with
    | some (files, w1) => uutilsReplaceLoop e.unified_binary files w1
    | none => none

/-- The disable loop body of `UutilsExperiment::disable`
(`src/experiments/uutils.rs` lines 95-99): restore `/usr/bin/<file_name>`
for each discovered file. -/
def uutilsRestoreLoop : List FsPath → World → World
  | [], w => w
  | f :: rest, w => uutilsRestoreLoop rest (restore_file w { dir := "/usr/bin", base := f.base })

/-- Disable a uutils experiment, from `UutilsExperiment::disable` in
`src/experiments/uutils.rs` lines 85-104: skip (with success) when the
package is not installed; otherwise list the bin directory, restore
every corresponding `/usr/bin` file, and only then remove the
package. -/
def UutilsExperiment.disable (e : UutilsExperiment) (w : World) : Option World :=
  let (inst, w) := check_installed w e.package
  if !inst then
    some w
  else
    match list_files w e.bin_directory with
    | some (files, w1) => some (remove_package (uutilsRestoreLoop files w1) e.package)
    | none => none

/-- The sudo-rs package name, from `PACKAGE` in
`src/experiments/sudors.rs`. -/
def sudorsPackage : String := "sudo-rs"

/-- The fixed file list of the sudo-rs experiment, from
`SudoRsExperiment::sudors_files` in `src/experiments/sudors.rs` lines
84-90. -/
def sudors_files : List FsPath :=
  [ { dir := "/usr/lib/cargo/bin", base := "su" },
    { dir := "/usr/lib/cargo/bin", base := "sudo" },
    { dir := "/usr/lib/cargo/bin", base := "visudo" } ]

/-- Supported releases of the sudo-rs experiment, from
`SudoRsExperiment::supported_releases` in `src/experiments/sudors.rs`
lines 31-37. -/
def sudorsSupportedReleases : List String := ["24.04", "24.10", "25.04"]

/-- Compatibility gate of the sudo-rs experiment, from
`SudoRsExperiment::check_compatible` in `src/experiments/sudors.rs`
lines 20-28: membership of the host release in the supported-release
list. -/
def sudorsCheckCompatible (w : World) : Bool :=
  sudorsSupportedReleases.contains w.distribution.release

/-- Target path of a sudo-rs managed binary, from the `match
self.system.which(filename)` in `SudoRsExperiment::enable`/`disable`:
the resolved path when `which` succeeds, `/usr/bin/<filename>`
otherwise. -/
def sudorsTarget (w : World) (name : String) : FsPath :=
  match whichLookup w name with
  | some p => p
  | none => { dir := "/usr/bin", base := name }

/-- The enable loop of `SudoRsExperiment::enable`
(`src/experiments/sudors.rs` lines 54-61). -/
def sudorsEnableLoop : List FsPath → World → Option World
  | [], w => some w
  | f :: rest, w =>
    match replace_file_with_symlink w f (sudorsTarget w f.base) with
    | some w1 => sudorsEnableLoop rest w1
    | none => none

/-- Enable the sudo-rs experiment, from `SudoRsExperiment::enable` in
`src/experiments/sudors.rs` lines 50-64: install the package, then
replace each of the three fixed files at its resolved system path. -/
def sudorsEnable (w : World) : Option World :=
  sudorsEnableLoop sudors_files (install_package w sudorsPackage)

/-- The disable loop of `SudoRsExperiment::disable`
(`src/experiments/sudors.rs` lines 68-75). -/
def sudorsDisableLoop : List FsPath → World → World
  | [], w => w
  | f :: rest, w => sudorsDisableLoop rest (restore_file w (sudorsTarget w f.base))

/-- Disable the sudo-rs experiment, from `SudoRsExperiment::disable` in
`src/experiments/sudors.rs` lines 67-81: restore each of the three
fixed files at its resolved system path, then remove the package. -/
def sudorsDisable (w : World) : Option World :=
  some (remove_package (sudorsDisableLoop sudors_files w) sudorsPackage)

/-- The experiment catalog entry type, from the `Experiment` enum in
`src/experiments/mod.rs` lines 10-13. -/
inductive Experiment where
  | uutils (e : UutilsExperiment)
  | sudors
deriving DecidableEq

/-- The backing package of an experiment. -/
def Experiment.package : Experiment → String
  | .uutils e => e.package
  | .sudors => sudorsPackage

/-- `Experiment::check_compatible`, from `src/experiments/mod.rs` lines
49-54: dispatch to the variant's gate. -/
def Experiment.check_compatible : Experiment → World → Bool
  | .uutils e, w => e.check_compatible w
  | .sudors, w => sudorsCheckCompatible w

/-- `Experiment::enable`, from `src/experiments/mod.rs` lines 23-36:
skip (with success) when the compatibility check is not bypassed and
fails; otherwise dispatch to the variant's enable. -/
def Experiment.enable (ex : Experiment) (no_compatibility_check : Bool) (w : World) :
    Option World :=
  if !no_compatibility_check && !(ex.check_compatible w) then
    some w
  else
    match ex with
    | .uutils e => e.enable w
    | .sudors => sudorsEnable w

/-- `Experiment::disable`, from `src/experiments/mod.rs` lines 38-47:
skip (with success) when the package is not installed; otherwise
dispatch to the variant's disable. -/
def Experiment.disable (ex : Experiment) (w : World) : Option World :=
  let (inst, w1) := check_installed w ex.package
  if !inst then
    some w1
  else
    match ex with
    | .uutils e => e.disable w1
    | .sudors => sudorsDisable w1

/-- The sequence of `Replace` invocations recorded in a log. -/
def replaceCalls : List Event → List (FsPath × FsPath)
  | [] => []
  | Event.replaceCall s t :: rest => (s, t) :: replaceCalls rest
  | _ :: rest => replaceCalls rest

/-- Concrete path fixtures, mirroring the repository's test fixtures. -/
def usrBinDate : FsPath := { dir := "/usr/bin", base := "date" }

def usrBinSort : FsPath := { dir := "/usr/bin", base := "sort" }

def cargoCoreutilsDir : String := "/usr/lib/cargo/bin/coreutils"

def cargoDate : FsPath := { dir := cargoCoreutilsDir, base := "date" }

def cargoSort : FsPath := { dir := cargoCoreutilsDir, base := "sort" }

def unifiedCoreutils : FsPath := { dir := "/usr/bin", base := "coreutils" }

def ubuntu2404 : Distribution := { id := "Ubuntu", release := "24.04" }

def ubuntu2004 : Distribution := { id := "Ubuntu", release := "20.04" }

/-- The coreutils experiment, from the catalog entry in
`src/experiments/mod.rs` / the `coreutils_fixture` test fixture. -/
def coreutilsExperiment : UutilsExperiment :=
  { name := "coreutils"
    package := "rust-coreutils"
    first_supported_release := "24.04"
    unified_binary := some unifiedCoreutils
    bin_directory := cargoCoreutilsDir }

/-- A world mirroring the `coreutils_compatible_runner` test fixture:
compatible release, package installed, cargo bin directory populated,
original GNU binaries in `/usr/bin`. -/
def baseWorld : World :=
  { fs := [ (cargoDate, FsEntry.file "uutils-date" 493),
            (cargoSort, FsEntry.file "uutils-sort" 493),
            (usrBinDate, FsEntry.file "gnu-date" 493),
            (usrBinSort, FsEntry.file "gnu-sort" 493) ]
    dirs := [cargoCoreutilsDir, "/usr/bin"]
    installed := ["rust-coreutils"]
    whichMap := []
    distribution := ubuntu2404
    log := [] }

/-- A world whose `/usr/bin/date` carries the setuid bit (permission
bits 0o4755 = 2541). -/
def suidWorld : World :=
  { baseWorld with
    fs := [ (cargoDate, FsEntry.file "uutils-date" 493),
            (usrBinDate, FsEntry.file "gnu-date" 2541) ] }

/-- A filesystem holding only an original `/usr/bin/date`, with no
backup file anywhere. -/
def noBackupFs : FS := [(usrBinDate, FsEntry.file "gnu-date" 493)]

/-- A world over `noBackupFs`. -/
def noBackupWorld : World :=
  { baseWorld with fs := noBackupFs }

/-- A world whose distribution carries the given release string. -/
def mkReleaseWorld (r : String) : World :=
  { fs := [], dirs := [], installed := [], whichMap := []
    distribution := { id := "Ubuntu", release := r }, log := [] }

/-- A world with nothing installed. -/
def notInstalledWorld : World :=
  { baseWorld with installed := [] }

/-- A world that already holds a stale backup of `/usr/bin/date`
alongside the current file. -/
def staleBackupWorld : World :=
  { baseWorld with
    fs := [ (usrBinDate, FsEntry.file "current-date" 2541),
            (backup_filename usrBinDate, FsEntry.file "stale-backup" 420) ] }

/-- The conventional system path of `su`. -/
def usrBinSu : FsPath := { dir := "/usr/bin", base := "su" }

/-- The conventional system path of `sudo`. -/
def usrBinSudo : FsPath := { dir := "/usr/bin", base := "sudo" }

/-- The conventional system path of `visudo`. -/
def usrSbinVisudo : FsPath := { dir := "/usr/sbin", base := "visudo" }

/-- A world mirroring the `sudors_compatible_runner` test fixture: the
three cargo binaries and the three system binaries exist, and `which`
resolves the binary names to their conventional system paths. -/
def sudoWorld : World :=
  { fs := [ ({ dir := "/usr/lib/cargo/bin", base := "su" }, FsEntry.file "sudors-su" 493),
            ({ dir := "/usr/lib/cargo/bin", base := "sudo" }, FsEntry.file "sudors-sudo" 493),
            ({ dir := "/usr/lib/cargo/bin", base := "visudo" }, FsEntry.file "sudors-visudo" 493),
            (usrBinSu, FsEntry.file "su" 2541),
            (usrBinSudo, FsEntry.file "sudo" 2541),
            (usrSbinVisudo, FsEntry.file "visudo" 493) ]
    dirs := ["/usr/lib/cargo/bin", "/usr/bin", "/usr/sbin"]
    installed := ["sudo-rs"]
    whichMap := [("su", usrBinSu), ("sudo", usrBinSudo), ("visudo", usrSbinVisudo)]
    distribution := ubuntu2404
    log := [] }

/-- An incompatible world: release 20.04, nothing installed, empty
log. -/
def incompatibleWorld : World :=
  { fs := [], dirs := [cargoCoreutilsDir], installed := [], whichMap := []
    distribution := ubuntu2004, log := [] }

theorem fsGet_erase_self (fs : FS) (p : FsPath) : fsGet (fsErase fs p) p = none := by
  induction fs with
  | nil => rfl
  | cons pe rest ih =>
    obtain ⟨q, e⟩ := pe
    by_cases h : q = p
    · simp [fsErase, h, ih]
    · simp [fsErase, h, fsGet, Ne.symm h, ih]

theorem fsGet_erase_ne (fs : FS) (p q : FsPath) (h : q ≠ p) :
    fsGet (fsErase fs p) q = fsGet fs q := by
  induction fs with
  | nil => rfl
  | cons pe rest ih =>
    obtain ⟨r, e⟩ := pe
    by_cases hr : r = p
    · subst hr
      simp [fsErase, fsGet, h, ih]
    · by_cases hq : q = r
      · subst hq
        simp [fsErase, hr, fsGet]
      · simp [fsErase, hr, fsGet, hq, ih]

theorem fsGet_insert_self (fs : FS) (p : FsPath) (e : FsEntry) :
    fsGet (fsInsert fs p e) p = some e := by
  simp [fsInsert, fsGet]

theorem fsGet_insert_ne (fs : FS) (p q : FsPath) (e : FsEntry) (h : q ≠ p) :
    fsGet (fsInsert fs p e) q = fsGet fs q := by
  simp [fsInsert, fsGet, h, fsGet_erase_ne fs p q h]

/-- The backup path of a file is never the file itself: the base names
have different lengths. -/
theorem backup_filename_ne (p : FsPath) : backup_filename p ≠ p := by
  intro h
  have hb : ("." ++ p.base ++ ".oxidizr.bak" : String) = p.base := congrArg FsPath.base h
  have hlen := congrArg String.length hb
  rw [String.length_append, String.length_append] at hlen
  have h1 : (".").length = 1 := rfl
  have h2 : (".oxidizr.bak").length = 12 := rfl
  omega

theorem replaceCalls_append (xs ys : List Event) :
    replaceCalls (xs ++ ys) = replaceCalls xs ++ replaceCalls ys := by
  induction xs with
  | nil => rfl
  | cons x rest ih => cases x <;> simp [replaceCalls, ih]

/-- The `replace_file_with_symlink` branch for a target that exists as a
regular file: back it up (copy, then re-apply the permission bits),
delete it, and create the symlink. -/
theorem replace_file_branch (w : World) (s T : FsPath) (c : String) (m : Nat)
    (h : fsGet w.fs T = some (FsEntry.file c m)) :
    replace_file_with_symlink w s T = some
      { w with
        fs := fsInsert (fsErase (fsInsert
                (fsInsert w.fs (backup_filename T) (FsEntry.file c (m % 512)))
                (backup_filename T) (FsEntry.file c m)) T) T (FsEntry.symlink s),
        log := w.log ++ [Event.replaceCall s T, Event.backupCall T, Event.symlinkCall s T] } := by
  have hTb : T ≠ backup_filename T := Ne.symm (backup_filename_ne T)
  simp [replace_file_with_symlink, fsExists, isSymlinkAt, h, backup_file,
    removeFile, create_symlink, fsGet_insert_ne, hTb]

/-- The `replace_file_with_symlink` branch for a target that is already
a symlink: skip, recording only the invocation. -/
theorem replace_skip_branch (w : World) (s t : FsPath)
    (h : isSymlinkAt w.fs t = true) :
    replace_file_with_symlink w s t =
      some { w with log := w.log ++ [Event.replaceCall s t] } := by
  have hE : fsExists w.fs t = true := by
    unfold isSymlinkAt at h
    unfold fsExists
    cases hg : fsGet w.fs t with
    | none => rw [hg] at h; simp at h
    | some e => simp
  simp [replace_file_with_symlink, hE, h]

/-- The `replace_file_with_symlink` branch for a missing target: create
the symlink directly. -/
theorem replace_fresh_branch (w : World) (s t : FsPath)
    (h : fsGet w.fs t = none) :
    replace_file_with_symlink w s t = some
      { w with
        fs := fsInsert w.fs t (FsEntry.symlink s),
        log := w.log ++ [Event.replaceCall s t, Event.symlinkCall s t] } := by
  simp [replace_file_with_symlink, fsExists, h, create_symlink]

/-- `replace_file_with_symlink` always succeeds in the model, leaves a
symlink at the target, records exactly one `Replace` invocation, and
touches neither the package database nor the environment. -/
theorem replace_total (w : World) (s t : FsPath) :
    ∃ w1, replace_file_with_symlink w s t = some w1 ∧
      isSymlinkAt w1.fs t = true ∧
      replaceCalls w1.log = replaceCalls w.log ++ [(s, t)] ∧
      w1.whichMap = w.whichMap ∧ w1.installed = w.installed ∧
      w1.dirs = w.dirs ∧ w1.distribution = w.distribution ∧
      ∃ tail, w1.log = w.log ++ tail := by
  cases hg : fsGet w.fs t with
  | none =>
    refine ⟨_, replace_fresh_branch w s t hg, ?_, ?_, rfl, rfl, rfl, rfl, _, rfl⟩
    · simp [isSymlinkAt, fsGet_insert_self]
    · simp [replaceCalls_append, replaceCalls]
  | some e =>
    cases e with
    | symlink src =>
      have hS : isSymlinkAt w.fs t = true := by simp [isSymlinkAt, hg]
      refine ⟨_, replace_skip_branch w s t hS, ?_, ?_, rfl, rfl, rfl, rfl, _, rfl⟩
      · simp [isSymlinkAt, hg]
      · simp [replaceCalls_append, replaceCalls]
    | file c m =>
      refine ⟨_, replace_file_branch w s t c m hg, ?_, ?_, rfl, rfl, rfl, rfl, _, rfl⟩
      · simp [isSymlinkAt, fsGet_insert_self]
      · simp [replaceCalls_append, replaceCalls]

/-- `restore_file` records its invocation and renames the backup over
the file when one exists, leaving the filesystem alone otherwise. -/
theorem restore_file_eq (w : World) (f : FsPath) :
    restore_file w f =
      { w with
        fs := if fsExists w.fs (backup_filename f) then
                fsRename w.fs (backup_filename f) f
              else w.fs,
        log := w.log ++ [Event.restoreCall f] } := by
  by_cases h : fsExists w.fs (backup_filename f) <;> simp [restore_file, h]

theorem uutilsRestoreLoop_log (files : List FsPath) : ∀ w : World,
    (uutilsRestoreLoop files w).log =
      w.log ++ files.map (fun f =>
        Event.restoreCall { dir := "/usr/bin", base := f.base }) := by
  induction files with
  | nil => intro w; simp [uutilsRestoreLoop]
  | cons f rest ih =>
    intro w
    rw [uutilsRestoreLoop, ih, restore_file_eq]
    simp

theorem uutilsReplaceLoop_spec (ub : Option FsPath) (files : List FsPath) : ∀ w : World,
    ∃ w1, uutilsReplaceLoop ub files w = some w1 ∧
      replaceCalls w1.log = replaceCalls w.log ++
        files.map (fun f => (uutilsSource ub f,
          ({ dir := "/usr/bin", base := f.base } : FsPath))) ∧
      ∃ tail, w1.log = w.log ++ tail := by
  induction files with
  | nil =>
    intro w
    exact ⟨w, rfl, by simp, [], by simp⟩
  | cons f rest ih =>
    intro w
    obtain ⟨w1, hrep, -, hcalls, -, -, -, -, tail, htail⟩ :=
      replace_total w (uutilsSource ub f) { dir := "/usr/bin", base := f.base }
    obtain ⟨w2, hloop, hcalls2, tail2, htail2⟩ := ih w1
    refine ⟨w2, ?_, ?_, ?_⟩
    · simp only [uutilsReplaceLoop]
      rw [hrep]
      exact hloop
    · rw [hcalls2, hcalls]
      simp
    · exact ⟨tail ++ tail2, by rw [htail2, htail, List.append_assoc]⟩

/-- `sudorsTarget` depends only on the `which` resolution table. -/
theorem sudorsTarget_congr (w1 w : World) (n : String)
    (h : w1.whichMap = w.whichMap) : sudorsTarget w1 n = sudorsTarget w n := by
  unfold sudorsTarget whichLookup
  rw [h]

theorem sudorsEnableLoop_spec (files : List FsPath) : ∀ w : World,
    ∃ w1, sudorsEnableLoop files w = some w1 ∧
      replaceCalls w1.log = replaceCalls w.log ++
        files.map (fun f => (f, sudorsTarget w f.base)) ∧
      w1.whichMap = w.whichMap ∧
      ∃ tail, w1.log = w.log ++ tail := by
  induction files with
  | nil =>
    intro w
    exact ⟨w, rfl, by simp, rfl, [], by simp⟩
  | cons f rest ih =>
    intro w
    obtain ⟨w1, hrep, -, hcalls, hwm, -, -, -, tail, htail⟩ :=
      replace_total w f (sudorsTarget w f.base)
    obtain ⟨w2, hloop, hcalls2, hwm2, tail2, htail2⟩ := ih w1
    refine ⟨w2, ?_, ?_, ?_, ?_⟩
    · simp only [sudorsEnableLoop]
      rw [hrep]
      exact hloop
    · rw [hcalls2, hcalls]
      simp only [List.map_cons, List.append_assoc, List.singleton_append]
      congr 2
      exact List.map_congr_left (fun g _ => by rw [sudorsTarget_congr w1 w g.base hwm])
    · rw [hwm2, hwm]
    · exact ⟨tail ++ tail2, by rw [htail2, htail, List.append_assoc]⟩

theorem sudorsDisableLoop_spec (files : List FsPath) : ∀ w : World,
    (sudorsDisableLoop files w).log =
      w.log ++ files.map (fun f => Event.restoreCall (sudorsTarget w f.base)) ∧
    (sudorsDisableLoop files w).whichMap = w.whichMap := by
  induction files with
  | nil => intro w; simp [sudorsDisableLoop]
  | cons f rest ih =>
    intro w
    obtain ⟨ihlog, ihwm⟩ := ih (restore_file w (sudorsTarget w f.base))
    have hwm : (restore_file w (sudorsTarget w f.base)).whichMap = w.whichMap := by
      rw [restore_file_eq]
    constructor
    · rw [sudorsDisableLoop, ihlog, restore_file_eq]
      simp only [List.map_cons, List.append_assoc, List.singleton_append]
      congr 2
    · rw [sudorsDisableLoop, ihwm, hwm]

/-- C1: for every target that exists as a regular file with arbitrary
permission bits (setuid/setgid/sticky included), `Replace(source, T)`
followed by `Restore(T)` returns `T` to content and permission bits
exactly equal to the original, and consumes the backup. -/
theorem c1_replace_restore_roundtrip (w : World) (s T : FsPath) (c : String) (m : Nat)
    (h : fsGet w.fs T = some (FsEntry.file c m)) :
    ∃ w1, replace_file_with_symlink w s T = some w1 ∧
      fsGet (restore_file w1 T).fs T = some (FsEntry.file c m) ∧
      fsGet (restore_file w1 T).fs (backup_filename T) = none := by
  have hbT : backup_filename T ≠ T := backup_filename_ne T
  have hTb : T ≠ backup_filename T := Ne.symm hbT
  refine ⟨_, replace_file_branch w s T c m h, ?_, ?_⟩ <;>
  · rw [restore_file_eq]
    simp [fsExists, fsRename, fsGet_insert_self, fsGet_insert_ne, fsGet_erase_self,
      fsGet_erase_ne, hbT, hTb]

/-- C1 witness: the round trip at a concrete world whose
`/usr/bin/date` is a regular file with setuid permission bits 2541. -/
theorem c1_witness :
    fsGet suidWorld.fs usrBinDate = some (FsEntry.file "gnu-date" 2541) ∧
    ∃ w1, replace_file_with_symlink suidWorld unifiedCoreutils usrBinDate = some w1 ∧
      fsGet (restore_file w1 usrBinDate).fs usrBinDate =
        some (FsEntry.file "gnu-date" 2541) ∧
      fsGet (restore_file w1 usrBinDate).fs (backup_filename usrBinDate) = none :=
  ⟨by decide,
   c1_replace_restore_roundtrip suidWorld unifiedCoreutils usrBinDate "gnu-date" 2541
     (by decide)⟩

/-- C2: a second `Replace` of the same target observes the symlink left
by the first and skips: the on-disk state (filesystem, backups
included) is unchanged; the log grows only by the recorded invocation,
with no backup event. -/
theorem c2_replace_idempotent (w w1 : World) (s t : FsPath)
    (h : replace_file_with_symlink w s t = some w1) :
    replace_file_with_symlink w1 s t =
      some { w1 with log := w1.log ++ [Event.replaceCall s t] } := by
  obtain ⟨w1', h', hsym, -⟩ := replace_total w s t
  rw [h] at h'
  injection h' with hh
  subst hh
  exact replace_skip_branch w1 s t hsym

/-- C2 witness: both `Replace` calls evaluated at a concrete world. -/
theorem c2_witness : ∃ w1,
    replace_file_with_symlink baseWorld unifiedCoreutils usrBinDate = some w1 ∧
    replace_file_with_symlink w1 unifiedCoreutils usrBinDate =
      some { w1 with log := w1.log ++ [Event.replaceCall unifiedCoreutils usrBinDate] } := by
  cases hEq : replace_file_with_symlink baseWorld unifiedCoreutils usrBinDate with
  | none => exact absurd hEq (by decide)
  | some w1 =>
    exact ⟨w1, rfl, c2_replace_idempotent baseWorld w1 unifiedCoreutils usrBinDate hEq⟩

/-- C3 counterexample: the claim is false for the cited
`restore_file` of `src/utils/files.rs` (lines 45-62).  On a filesystem
where the target exists as a regular file and no backup exists, that
function deletes the target before checking for a backup, so the call
observably changes the filesystem and the target is gone. -/
theorem c3_counterexample :
    fsGet noBackupFs (backup_filename usrBinDate) = none ∧
    files_restore_file noBackupFs usrBinDate ≠ noBackupFs ∧
    fsGet (files_restore_file noBackupFs usrBinDate) usrBinDate = none := by
  decide

/-- C3 (amended): for the compiled `System::restore_file` of
`src/utils/worker.rs`, restoring a target with no backup present
succeeds and leaves the filesystem — the target included — untouched;
only the invocation is logged.  The legacy `restore_file` of the dead
module `src/utils/files.rs` instead deletes the target first, so the
claim does not extend to it. -/
theorem c3_restore_no_backup_noop (w : World) (T : FsPath)
    (h : fsGet w.fs (backup_filename T) = none) :
    restore_file w T = { w with log := w.log ++ [Event.restoreCall T] } := by
  rw [restore_file_eq]
  simp [fsExists, h]

/-- C3 witness: the no-op restore at a concrete world with no backup. -/
theorem c3_witness :
    fsGet noBackupWorld.fs (backup_filename usrBinDate) = none ∧
    restore_file noBackupWorld usrBinDate =
      { noBackupWorld with log := noBackupWorld.log ++ [Event.restoreCall usrBinDate] } :=
  ⟨by decide, c3_restore_no_backup_noop noBackupWorld usrBinDate (by decide)⟩

/-- C5: the compatibility gates are pure predicates of the release
string.  The uutils variant compares the host release to the minimum
supported release with inclusive lexicographic ordering; the sudo-rs
variant checks membership of its supported-release set.  With minimum
(or set containing) "24.04": host "23.10" is incompatible, hosts
"24.04" and "24.10" are compatible. -/
theorem c5_check_compatible_boundary :
    (coreutilsExperiment.check_compatible (mkReleaseWorld "23.10") = false) ∧
    (coreutilsExperiment.check_compatible (mkReleaseWorld "24.04") = true) ∧
    (coreutilsExperiment.check_compatible (mkReleaseWorld "24.10") = true) ∧
    (sudorsCheckCompatible (mkReleaseWorld "23.10") = false) ∧
    (sudorsCheckCompatible (mkReleaseWorld "24.04") = true) ∧
    (sudorsCheckCompatible (mkReleaseWorld "24.10") = true) := by
  decide

/-- C7: for every experiment whose backing package is not installed,
`Experiment::disable` returns success having issued exactly the
`dpkg-query` installed-check and nothing else — no other package-manager
command, no directory listing, no file operation — and the same holds
for the inner `UutilsExperiment::disable`. -/
theorem c7_disable_not_installed :
    (∀ (ex : Experiment) (w : World),
      w.installed.contains ex.package = false →
      Experiment.disable ex w =
        some { w with log := w.log ++ [Event.cmd ("dpkg-query -s " ++ ex.package)] }) ∧
    (∀ (e : UutilsExperiment) (w : World),
      w.installed.contains e.package = false →
      e.disable w =
        some { w with log := w.log ++ [Event.cmd ("dpkg-query -s " ++ e.package)] }) := by
  constructor
  · intro ex w h
    have hmem : ex.package ∉ w.installed := by simpa using h
    simp [Experiment.disable, check_installed, runCmd, hmem]
  · intro e w h
    have hmem : e.package ∉ w.installed := by simpa using h
    simp [UutilsExperiment.disable, check_installed, runCmd, hmem]

/-- C7 witness: disabling the coreutils experiment on a world with no
installed package issues only the installed-check. -/
theorem c7_witness :
    notInstalledWorld.installed.contains (Experiment.uutils coreutilsExperiment).package
      = false ∧
    Experiment.disable (Experiment.uutils coreutilsExperiment) notInstalledWorld =
      some { notInstalledWorld with
        log := notInstalledWorld.log ++
          [Event.cmd ("dpkg-query -s " ++ (Experiment.uutils coreutilsExperiment).package)] } :=
  ⟨by decide,
   c7_disable_not_installed.1 (Experiment.uutils coreutilsExperiment) notInstalledWorld
     (by decide)⟩

/-- C10: `backup_file` contains no guard against an existing backup:
called on a file whose backup already exists (any entry `eb`), both the
`System::backup_file` of `src/utils/worker.rs` and the legacy
`backup_file` of `src/utils/files.rs` overwrite the backup with the
file's current content (the legacy variant also dropping the
setuid/setgid/sticky bits).  The at-most-one-backup guarantee comes
solely from `replace_file_with_symlink` skipping targets that are
already symlinks — recording the invocation but no backup event and
leaving the filesystem unchanged. -/
theorem c10_backup_overwrite_and_skip_guard :
    (∀ (w : World) (P : FsPath) (c : String) (m : Nat) (eb : FsEntry),
      fsGet w.fs P = some (FsEntry.file c m) →
      fsGet w.fs (backup_filename P) = some eb →
      ∃ w1, backup_file w P = some w1 ∧
        fsGet w1.fs (backup_filename P) = some (FsEntry.file c m)) ∧
    (∀ (fs : FS) (P : FsPath) (c : String) (m : Nat) (eb : FsEntry),
      fsGet fs P = some (FsEntry.file c m) →
      fsGet fs (backup_filename P) = some eb →
      ∃ fs1, files_backup_file fs P = some fs1 ∧
        fsGet fs1 (backup_filename P) = some (FsEntry.file c (m % 512))) ∧
    (∀ (w : World) (s t : FsPath), isSymlinkAt w.fs t = true →
      replace_file_with_symlink w s t =
        some { w with log := w.log ++ [Event.replaceCall s t] }) := by
  refine ⟨?_, ?_, ?_⟩
  · intro w P c m eb hP hB
    refine ⟨{ w with
        fs := fsInsert (fsInsert w.fs (backup_filename P) (FsEntry.file c (m % 512)))
                (backup_filename P) (FsEntry.file c m)
        log := w.log ++ [Event.backupCall P] }, ?_, ?_⟩
    · simp [backup_file, hP]
    · simp [fsGet_insert_self]
  · intro fs P c m eb hP hB
    refine ⟨fsInsert fs (backup_filename P) (FsEntry.file c (m % 512)), ?_, ?_⟩
    · simp [files_backup_file, hP]
    · simp [fsGet_insert_self]
  · intro w s t h
    exact replace_skip_branch w s t h

/-- C10 witness: `backup_file` on a file whose backup already exists
overwrites the stale backup with the current content. -/
theorem c10_witness :
    fsGet staleBackupWorld.fs usrBinDate = some (FsEntry.file "current-date" 2541) ∧
    fsGet staleBackupWorld.fs (backup_filename usrBinDate) =
      some (FsEntry.file "stale-backup" 420) ∧
    ∃ w1, backup_file staleBackupWorld usrBinDate = some w1 ∧
      fsGet w1.fs (backup_filename usrBinDate) =
        some (FsEntry.file "current-date" 2541) :=
  ⟨by decide, by decide,
   c10_backup_overwrite_and_skip_guard.1 staleBackupWorld usrBinDate "current-date" 2541
     (FsEntry.file "stale-backup" 420) (by decide) (by decide)⟩

/-- C4: on both experiment kinds, `disable` issues the restore of every
file in the experiment's scope strictly before the package-removal
command: the log of a successful `UutilsExperiment::disable` is exactly
the installed-check, the directory listing, one restore per discovered
file, and only then the `apt-get remove` command; the log of
`SudoRsExperiment::disable` is exactly one restore per fixed file
followed by the `apt-get remove` command. -/
theorem c4_disable_restores_before_remove :
    (∀ (e : UutilsExperiment) (w : World),
      w.installed.contains e.package = true →
      w.dirs.contains e.bin_directory = true →
      ∃ w1, e.disable w = some w1 ∧
        w1.log = w.log ++ [Event.cmd ("dpkg-query -s " ++ e.package),
            Event.listDir e.bin_directory]
          ++ (dirFiles w.fs e.bin_directory).map (fun f =>
              Event.restoreCall { dir := "/usr/bin", base := f.base })
          ++ [Event.cmd ("apt-get remove -y " ++ e.package)]) ∧
    (∀ w : World,
      ∃ w1, sudorsDisable w = some w1 ∧
        w1.log = w.log ++ sudors_files.map (fun f =>
            Event.restoreCall (sudorsTarget w f.base))
          ++ [Event.cmd ("apt-get remove -y " ++ sudorsPackage)]) := by
  constructor
  · intro e w hin hdir
    have hmem : e.package ∈ w.installed := by simpa using hin
    have hdis : e.disable w = some (remove_package
        (uutilsRestoreLoop (dirFiles w.fs e.bin_directory)
          { w with log := w.log ++ [Event.cmd ("dpkg-query -s " ++ e.package),
              Event.listDir e.bin_directory] })
        e.package) := by
      have hdmem : e.bin_directory ∈ w.dirs := by simpa using hdir
      simp [UutilsExperiment.disable, check_installed, runCmd, hmem, list_files, hdmem]
    refine ⟨_, hdis, ?_⟩
    simp only [remove_package, runCmd, uutilsRestoreLoop_log]
  · intro w
    refine ⟨_, rfl, ?_⟩
    simp only [sudorsDisable, remove_package, runCmd]
    rw [(sudorsDisableLoop_spec sudors_files w).1]

/-- C4 witness: disabling the installed coreutils experiment on the
concrete fixture world restores both discovered files before the
removal command. -/
theorem c4_witness :
    baseWorld.installed.contains coreutilsExperiment.package = true ∧
    baseWorld.dirs.contains coreutilsExperiment.bin_directory = true ∧
    ∃ w1, coreutilsExperiment.disable baseWorld = some w1 ∧
      w1.log = baseWorld.log ++ [Event.cmd ("dpkg-query -s " ++ coreutilsExperiment.package),
          Event.listDir coreutilsExperiment.bin_directory]
        ++ (dirFiles baseWorld.fs coreutilsExperiment.bin_directory).map (fun f =>
            Event.restoreCall { dir := "/usr/bin", base := f.base })
        ++ [Event.cmd ("apt-get remove -y " ++ coreutilsExperiment.package)] :=
  ⟨by decide, by decide,
   c4_disable_restores_before_remove.1 coreutilsExperiment baseWorld (by decide) (by decide)⟩

/-- C8: enabling a compatible uutils experiment records one `Replace`
invocation per file discovered in the experiment's bin directory, with
target `/usr/bin/<file_name>` and source given by `uutilsSource`: the
unified binary for every file when one is configured, the discovered
file itself otherwise. -/
theorem c8_enable_replace_targets (e : UutilsExperiment) (w : World)
    (hc : e.check_compatible w = true)
    (hd : w.dirs.contains e.bin_directory = true) :
    ∃ w1, e.enable w = some w1 ∧
      replaceCalls w1.log = replaceCalls w.log ++
        (dirFiles w.fs e.bin_directory).map (fun f =>
          (uutilsSource e.unified_binary f,
            ({ dir := "/usr/bin", base := f.base } : FsPath))) := by
  have hdmem : e.bin_directory ∈ w.dirs := by simpa using hd
  obtain ⟨w1, hloop, hcalls, -⟩ :=
    uutilsReplaceLoop_spec e.unified_binary (dirFiles w.fs e.bin_directory)
      { w with
        installed := e.package :: w.installed
        log := w.log ++ [Event.cmd ("apt-get install -y " ++ e.package),
          Event.listDir e.bin_directory] }
  refine ⟨w1, ?_, ?_⟩
  · simp only [UutilsExperiment.enable, hc, Bool.not_true, Bool.false_eq_true, if_false,
      install_package, runCmd, list_files]
    simp only [List.append_assoc, List.singleton_append]
    simpa [hdmem] using hloop
  · rw [hcalls]
    simp [replaceCalls_append, replaceCalls]

/-- C8 witness: enabling the coreutils experiment (unified binary
`/usr/bin/coreutils`) on the fixture world records `Replace` calls
targeting `/usr/bin/date` and `/usr/bin/sort`, both sourced from the
unified binary. -/
theorem c8_witness :
    coreutilsExperiment.check_compatible baseWorld = true ∧
    baseWorld.dirs.contains coreutilsExperiment.bin_directory = true ∧
    ∃ w1, coreutilsExperiment.enable baseWorld = some w1 ∧
      replaceCalls w1.log = replaceCalls baseWorld.log ++
        (dirFiles baseWorld.fs coreutilsExperiment.bin_directory).map (fun f =>
          (uutilsSource coreutilsExperiment.unified_binary f,
            ({ dir := "/usr/bin", base := f.base } : FsPath))) :=
  ⟨by decide, by decide,
   c8_enable_replace_targets coreutilsExperiment baseWorld (by decide) (by decide)⟩

/-- C9: on any world where `which` resolves `su`, `sudo` and `visudo`
to their conventional system paths, enable and disable of the sudo-rs
experiment operate on exactly those three files — whatever the
filesystem holds in any bin directory: the enable log records exactly
three `Replace` invocations sourced from the fixed cargo paths, and the
disable log restores exactly those three targets before the removal
command. -/
theorem c9_sudors_fixed_files (w : World)
    (hsu : whichLookup w "su" = some usrBinSu)
    (hsudo : whichLookup w "sudo" = some usrBinSudo)
    (hvisudo : whichLookup w "visudo" = some usrSbinVisudo) :
    (∃ w1, sudorsEnable w = some w1 ∧
      replaceCalls w1.log = replaceCalls w.log ++
        [({ dir := "/usr/lib/cargo/bin", base := "su" }, usrBinSu),
         ({ dir := "/usr/lib/cargo/bin", base := "sudo" }, usrBinSudo),
         ({ dir := "/usr/lib/cargo/bin", base := "visudo" }, usrSbinVisudo)]) ∧
    (∃ w2, sudorsDisable w = some w2 ∧
      w2.log = w.log ++
        [Event.restoreCall usrBinSu, Event.restoreCall usrBinSudo,
         Event.restoreCall usrSbinVisudo,
         Event.cmd ("apt-get remove -y " ++ sudorsPackage)]) := by
  have ht1 : sudorsTarget w "su" = usrBinSu := by simp [sudorsTarget, hsu]
  have ht2 : sudorsTarget w "sudo" = usrBinSudo := by simp [sudorsTarget, hsudo]
  have ht3 : sudorsTarget w "visudo" = usrSbinVisudo := by simp [sudorsTarget, hvisudo]
  constructor
  · obtain ⟨w1, hloop, hcalls, -, -⟩ :=
      sudorsEnableLoop_spec sudors_files (install_package w sudorsPackage)
    refine ⟨w1, hloop, ?_⟩
    rw [hcalls]
    have hwm : (install_package w sudorsPackage).whichMap = w.whichMap := rfl
    simp only [sudors_files, List.map_cons, List.map_nil,
      sudorsTarget_congr (install_package w sudorsPackage) w _ hwm]
    simp only [install_package, runCmd]
    simp [replaceCalls_append, replaceCalls, ht1, ht2, ht3]
  · refine ⟨_, rfl, ?_⟩
    simp only [sudorsDisable, remove_package, runCmd]
    rw [(sudorsDisableLoop_spec sudors_files w).1]
    simp [sudors_files, ht1, ht2, ht3]

/-- C9 witness: the sudo-rs enable and disable at the concrete fixture
world. -/
theorem c9_witness :
    whichLookup sudoWorld "su" = some usrBinSu ∧
    whichLookup sudoWorld "sudo" = some usrBinSudo ∧
    whichLookup sudoWorld "visudo" = some usrSbinVisudo ∧
    ((∃ w1, sudorsEnable sudoWorld = some w1 ∧
      replaceCalls w1.log = replaceCalls sudoWorld.log ++
        [({ dir := "/usr/lib/cargo/bin", base := "su" }, usrBinSu),
         ({ dir := "/usr/lib/cargo/bin", base := "sudo" }, usrBinSudo),
         ({ dir := "/usr/lib/cargo/bin", base := "visudo" }, usrSbinVisudo)]) ∧
    (∃ w2, sudorsDisable sudoWorld = some w2 ∧
      w2.log = sudoWorld.log ++
        [Event.restoreCall usrBinSu, Event.restoreCall usrBinSudo,
         Event.restoreCall usrSbinVisudo,
         Event.cmd ("apt-get remove -y " ++ sudorsPackage)])) :=
  ⟨by decide, by decide, by decide,
   c9_sudors_fixed_files sudoWorld (by decide) (by decide) (by decide)⟩

/-- C6 counterexample: with compatibility checking explicitly bypassed
on an incompatible host (release 20.04), enabling the coreutils
experiment does not proceed to install anything: `Experiment::enable`
skips only its own outer gate, and `UutilsExperiment::enable`
(`src/experiments/uutils.rs` lines 54-61) re-checks compatibility with
no bypass flag and returns the world unchanged — its empty log shows no
command was issued and no file touched. -/
theorem c6_counterexample :
    Experiment.enable (Experiment.uutils coreutilsExperiment) true incompatibleWorld =
      some incompatibleWorld ∧
    incompatibleWorld.log = [] := by
  decide

/-- C6 (amended): on an incompatible host, enable without bypass
returns success touching nothing, for every experiment.  With the
bypass flag, `Experiment::enable` skips only the outer gate: the
sudo-rs experiment then proceeds unconditionally — its enable always
issues the install command first — but a uutils experiment re-checks
compatibility inside `UutilsExperiment::enable` without any bypass and
still returns success as a no-op. -/
theorem c6_enable_compat_gate :
    (∀ (ex : Experiment) (w : World), ex.check_compatible w = false →
      Experiment.enable ex false w = some w) ∧
    (∀ w : World, Experiment.enable Experiment.sudors true w = sudorsEnable w) ∧
    (∀ (w w1 : World), sudorsEnable w = some w1 →
      ∃ rest, w1.log = w.log ++ Event.cmd ("apt-get install -y " ++ sudorsPackage) :: rest) ∧
    (∀ (e : UutilsExperiment) (w : World), e.check_compatible w = false →
      Experiment.enable (Experiment.uutils e) true w = some w) := by
  refine ⟨?_, ?_, ?_, ?_⟩
  · intro ex w h
    simp [Experiment.enable, h]
  · intro w
    simp [Experiment.enable]
  · intro w w1 h
    obtain ⟨w1', hloop, -, -, tail, htail⟩ :=
      sudorsEnableLoop_spec sudors_files (install_package w sudorsPackage)
    rw [sudorsEnable, hloop] at h
    injection h with hh
    subst hh
    refine ⟨tail, ?_⟩
    rw [htail]
    simp [install_package, runCmd]
  · intro e w h
    simp [Experiment.enable, Experiment.check_compatible, UutilsExperiment.enable, h]

/-- C6 witness: the gate instantiated at the incompatible fixture
world — no-bypass enable is the identity, and bypassed enable of the
uutils experiment is still the identity. -/
theorem c6_witness :
    (Experiment.uutils coreutilsExperiment).check_compatible incompatibleWorld = false ∧
    Experiment.enable (Experiment.uutils coreutilsExperiment) false incompatibleWorld =
      some incompatibleWorld ∧
    coreutilsExperiment.check_compatible incompatibleWorld = false ∧
    Experiment.enable (Experiment.uutils coreutilsExperiment) true incompatibleWorld =
      some incompatibleWorld :=
  ⟨by decide,
   c6_enable_compat_gate.1 (Experiment.uutils coreutilsExperiment) incompatibleWorld (by decide),
   by decide,
   c6_enable_compat_gate.2.2.2 coreutilsExperiment incompatibleWorld (by decide)⟩
